import Mathlib

/-!
Shallow embedding of `occa/okl/oklifier.py`, the Python-to-OKL translator of
the `occa-python` repository, together with theorems checking the repository's
specification against it.

Conventions of the embedding:
* Python AST nodes are represented by the inductive types `Expr` / `Stmt`
  below, covering the node kinds the development reasons about.
* Machine behaviour of the Python runtime that the module's control flow
  depends on (dict `KeyError`, unbound-global `NameError`, list `IndexError`,
  name mangling of `__`-prefixed identifiers inside a class body) is modelled
  explicitly.
* `raise_error(node, message)` raises `TransformError` carrying a formatted
  diagnostic built around `message`; the embedding's `PyError.transformError`
  carries the `message` argument itself (the context window added by the
  formatter is presentation only).
* Fallible translation steps return `Except PyError`.
-/

/-- Errors observable from the translator: the module's own two exception
types plus the Python runtime errors its code can trigger. -/
inductive PyError
  | transformError (message : String)
  | closureError (message : String)
  | keyError (key : String)
  | nameError (name : String)
  | indexError (message : String)
  | attributeError (name : String)
  deriving Repr, DecidableEq

/-- Expression-level AST nodes used by the translator (subset of `ast` nodes
that the embedded code paths consume). -/
inductive Expr
  | name (id : String)
  | num (n : Int)
  | attr (value : Expr) (ident : String)
  | call (func : Expr) (args : List Expr)
  deriving Repr

/-- `self.globals`: mapping from a captured global name to its primitive
kernel type string, in insertion order. -/
abbrev Globals := List (String × String)

/-- `stringify_Name`: `var = self.globals.get(name); return var or name`.
`var or name` falls back to `name` when the lookup misses or yields a falsy
(empty) string. -/
def stringify_Name (g : Globals) (id : String) : String :=
  match g.lookup id with
  | some v => if v = "" then id else v
  | none => id

mutual

/-- `stringify_node` restricted to expression nodes: dispatches on the node
kind exactly as `stringify_node_map` does (`Name`, `Num`, `Attribute`,
`Call`).  In `stringify_Call` the argument strings are produced (and can
fail) before the function expression is stringified. -/
def stringify_node (g : Globals) : Expr → Except PyError String
  | .name id => .ok (stringify_Name g id)
  | .num n => .ok (toString n)
  | .attr value ident => do
      let s ← stringify_node g value
      .ok (s ++ "." ++ ident)
  | .call func args => do
      let argStrs ← stringify_node_list g args
      let fs ← stringify_node g func
      .ok (fs ++ "(" ++ String.intercalate ", " argStrs ++ ")")

/-- Left-to-right stringification of a list of subnodes, stopping at the
first failure (the behaviour of a generator consumed by `join`). -/
def stringify_node_list (g : Globals) : List Expr → Except PyError (List String)
  | [] => .ok []
  | e :: rest => do
      let s ← stringify_node g e
      let l ← stringify_node_list g rest
      .ok (s :: l)

end

/-- Comparison operator node classes (`node.ops` entries of `ast.Compare`). -/
inductive CmpOp
  | eq | notEq | lt | ltE | gt | gtE | is_op | isNot | in_op | notIn
  deriving Repr, DecidableEq

/-- `COMPARE_OP_STR`: the fixed comparator table.  `ast.LtE`, `ast.In` and
`ast.NotIn` are absent from the dict. -/
def COMPARE_OP_STR : CmpOp → Option String
  | .eq => some "=="
  | .notEq => some "!="
  | .lt => some "<"
  | .gt => some ">"
  | .gtE => some ">="
  | .is_op => some "=="
  | .isNot => some "!="
  | _ => none

/-- The key repr used by a `KeyError` on a missing comparator class. -/
def cmpOpKey : CmpOp → String
  | .eq => "ast.Eq"
  | .notEq => "ast.NotEq"
  | .lt => "ast.Lt"
  | .ltE => "ast.LtE"
  | .gt => "ast.Gt"
  | .gtE => "ast.GtE"
  | .is_op => "ast.Is"
  | .isNot => "ast.IsNot"
  | .in_op => "ast.In"
  | .notIn => "ast.NotIn"

/-- `[COMPARE_OP_STR[op] for op in ops]` when the loop variable `ops` still
holds the operator classes: dict subscripting raises `KeyError` on the first
class missing from the table. -/
def convertClasses : List CmpOp → Except PyError (List String)
  | [] => .ok []
  | op :: rest =>
      match COMPARE_OP_STR op with
      | some s => (convertClasses rest).map (fun l => s :: l)
      | none => .error (.keyError (cmpOpKey op))

/-- `[COMPARE_OP_STR[op] for op in ops]` after `ops` has been rebound to a
list of strings: the dict is keyed by the operator classes, so the first
string element raises `KeyError`. -/
def convertStrs : List String → Except PyError (List String)
  | [] => .ok []
  | s :: _ => .error (.keyError s)

/-- State of the loop-local bindings of `stringify_Compare`'s `for` loop:
either the body has not run (`ops` still holds classes, `values` unbound) or
it ran at least once (`ops` rebound to strings, `values` bound). -/
inductive CompareLoopState
  | noIter
  | ran (opStrs : List String) (values : List String)
  deriving Repr, DecidableEq

/-- The `for op_index, op in enumerate(ops)` loop of `stringify_Compare`.
`enumerate` iterates over the original class list even after `ops` is rebound
inside the body; each iteration membership-checks the current class, then
re-evaluates both comprehensions against the rebound `ops`. -/
def compareLoop (origOps : List CmpOp) (valuesExc : Except PyError (List String)) :
    List CmpOp → CompareLoopState → Except PyError CompareLoopState
  | [], st => .ok st
  | op :: rest, st =>
      if (COMPARE_OP_STR op).isSome then
        let conv := match st with
          | .noIter => convertClasses origOps
          | .ran opStrs _ => convertStrs opStrs
        match conv with
        | .error e => .error e
        | .ok opStrs =>
            match valuesExc with
            | .error e => .error e
            | .ok vs => compareLoop origOps valuesExc rest (.ran opStrs vs)
      else
        .error (.transformError "Cannot handle comparison operator")

/-- `' && '.join('{left} {op} {right}' ...)` over `zip(values[:-1], values[1:])`
with `ops[index]`. -/
def joinCompare (opStrs values : List String) : String :=
  String.intercalate " && "
    (((values.zip (values.drop 1)).zip opStrs).map
      (fun p => p.1.1 ++ " " ++ p.2 ++ " " ++ p.1.2))

/-- `stringify_Compare(node)`: `node.left` / `node.ops` / `node.comparators`.
With no operator at all the loop body never runs and the trailing `return`
reads the unbound local `values` (`NameError`); this cannot happen for a real
`ast.Compare` node, which has at least one comparator. -/
def stringify_Compare (g : Globals) (left : Expr) (ops : List CmpOp)
    (comparators : List Expr) : Except PyError String :=
  let valuesExc := stringify_node_list g (left :: comparators)
  match compareLoop ops valuesExc ops .noIter with
  | .error e => .error e
  | .ok .noIter => .error (.nameError "values")
  | .ok (.ran opStrs vs) => .ok (joinCompare opStrs vs)

/-- Augmented-assignment operator node classes (`node.op` of `ast.AugAssign`). -/
inductive AugOp
  | add | sub | mult | div | mod | pow | lshift | rshift
  | bitOr | bitAnd | bitXor | floorDiv | matMult
  deriving Repr, DecidableEq

/-- `AUG_OP_FORMATS`: the fixed augmented-assignment format table, including
its literal `'{left} << {right}'` entry for `ast.LShift` and
`'{left} = floor({left} /= {right})'` entry for `ast.FloorDiv`.  `ast.BitXor`
and `ast.MatMult` are absent. -/
def AUG_OP_FORMATS : AugOp → Option (String → String → String)
  | .add => some (fun l r => l ++ " += " ++ r)
  | .sub => some (fun l r => l ++ " -= " ++ r)
  | .mult => some (fun l r => l ++ " *= " ++ r)
  | .div => some (fun l r => l ++ " /= " ++ r)
  | .mod => some (fun l r => l ++ " %= " ++ r)
  | .pow => some (fun l r => l ++ " = pow(" ++ l ++ ", " ++ r ++ ")")
  | .lshift => some (fun l r => l ++ " << " ++ r)
  | .rshift => some (fun l r => l ++ " >>= " ++ r)
  | .bitOr => some (fun l r => l ++ " |= " ++ r)
  | .bitAnd => some (fun l r => l ++ " &= " ++ r)
  | .floorDiv => some (fun l r => l ++ " = floor(" ++ l ++ " /= " ++ r ++ ")")
  | _ => none

/-- `stringify_AugAssign`: look up the format for the operator class, else
`raise_error(node.op, 'Unable to handle operator')`; on a hit, format with the
stringified target and value. -/
def stringify_AugAssign (g : Globals) (target : Expr) (op : AugOp)
    (value : Expr) : Except PyError String :=
  match AUG_OP_FORMATS op with
  | none => .error (.transformError "Unable to handle operator")
  | some fmt => do
      let l ← stringify_node g target
      let r ← stringify_node g value
      .ok (fmt l r)

/-- `INDENT_TAB = '  '`. -/
def INDENT_TAB : String := "  "

/-- `py_to_c_type` is the identity on type names. -/
def py_to_c_type (type_name : String) : String := type_name

/-- `stringify_annotation(node, var_name)`: `None` yields the bare variable
name; a `Name` node yields the looked-up type, prefixed to the variable name
when one is given; the node kinds of `Expr` not handled by the method raise
`'Cannot handle type annotation'`. -/
def stringify_annotation (g : Globals) (node : Option Expr) (var_name : String) :
    Except PyError String :=
  match node with
  | none => .ok var_name
  | some (.name id) =>
      let type_str := py_to_c_type (stringify_Name g id)
      if var_name ≠ "" then .ok (type_str ++ " " ++ var_name) else .ok type_str
  | some _ => .error (.transformError "Cannot handle type annotation")

/-- `self.scope_stack`: a stack of declaration sets.  Python appends and pops
at the end of a list and reads the innermost set as `scope_stack[-1]`; the
embedding keeps the innermost set at the head. -/
abbrev Scope := List (List String)

/-- `add_to_scope`: `self.scope_stack[-1].add(var_name)` — set insertion into
the innermost scope; on an empty stack the subscript raises `IndexError`. -/
def add_to_scope (scope : Scope) (var_name : String) : Except PyError Scope :=
  match scope with
  | [] => .error (.indexError "list index out of range")
  | top :: rest => .ok (top.insert var_name :: rest)

/-- `is_defined`: membership of the name in any scope currently on the stack. -/
def is_defined (scope : Scope) (var_name : String) : Bool :=
  scope.any (fun s => s.contains var_name)

/-- An `ast.arg` node: argument name plus optional annotation. -/
structure ArgNode where
  arg : String
  annotation : Option Expr
  deriving Repr

/-- An `ast.arguments` node, with the flags the translator checks (`vararg`,
`kwarg` presence; nonemptiness of `defaults` / `kw_defaults`). -/
structure ArgumentsNode where
  args : List ArgNode
  kwonlyargs : List ArgNode
  vararg : Bool
  kwarg : Bool
  defaults : Bool
  kw_defaults : Bool
  deriving Repr

/-- The per-argument body of `stringify_Arguments`'s loop: annotate each
argument name, failing when the annotated form equals the bare name. -/
def stringify_Arguments_go (g : Globals) : List ArgNode → Except PyError (List String)
  | [] => .ok []
  | a :: rest => do
      let arg_str ← stringify_annotation g a.annotation a.arg
      if arg_str = a.arg then
        .error (.transformError "Arguments must have a type annotation")
      else
        (stringify_Arguments_go g rest).map (fun l => arg_str :: l)

/-- `stringify_Arguments`: reject `**kwargs`, `*args` and defaults, then emit
the annotated arguments separated by `',\n' + indent`. -/
def stringify_Arguments (g : Globals) (a : ArgumentsNode) (indent : String) :
    Except PyError String := do
  if a.kwarg then .error (.transformError "Cannot handle **kwargs")
  else if a.vararg then .error (.transformError "Cannot handle *args")
  else if a.defaults || a.kw_defaults then
    .error (.transformError "Cannot handle default arguments yet")
  else do
    let strs ← stringify_Arguments_go g (a.args ++ a.kwonlyargs)
    .ok (String.intercalate (",\n" ++ indent) strs)

/-- `OKL_DECORATORS`: the one-entry decorator rewrite table. -/
def OKL_DECORATORS : List (String × String) := [("@okl.kernel", "@kernel")]

/-- The decorator loop of `stringify_function_signature`: each decorator is
rendered as `@<attr>`, looked up in `OKL_DECORATORS`, and its rewritten form
accumulated followed by a space. -/
def stringify_decorators (g : Globals) : List Expr → Except PyError String
  | [] => .ok ""
  | d :: rest => do
      let ds ← stringify_node g d
      match OKL_DECORATORS.lookup ("@" ++ ds) with
      | none => .error (.transformError "Cannot handle decorator")
      | some okl => (stringify_decorators g rest).map (fun r => okl ++ " " ++ r)

/-- `stringify_function_signature(node, semicolon)`: return type (required to
be non-empty), decorators, name, arguments aligned under the opening
parenthesis, and a trailing semicolon when requested. -/
def stringify_function_signature (g : Globals) (name : String)
    (args : ArgumentsNode) (returns : Option Expr) (decorator_list : List Expr)
    (semicolon : Bool) : Except PyError String := do
  let returnsStr ← stringify_annotation g returns ""
  if returnsStr = "" then
    .error (.transformError "Function must have a return value type")
  else do
    let decorators ← stringify_decorators g decorator_list
    let func_str := decorators ++ returnsStr ++ " " ++ name ++ "("
    let argsStr ← stringify_Arguments g args (String.mk (List.replicate func_str.length ' '))
    let func_str := func_str ++ argsStr ++ ")"
    .ok (if semicolon then func_str ++ ";" else func_str)

/-- `get_range`: placeholder bound triple for a bare `range(...)` iterable. -/
def get_range (_node : Expr) : Int × Int × Int := (0, 10, 1)

/-- `get_okl_range`: placeholder bound triple for an `okl.range(...)` iterable. -/
def get_okl_range (_node : Expr) : Int × Int × Int := (0, 10, 1)

/-- Python `str.startswith`, modelled on the character sequence of the
strings. -/
def str_startswith (s pre : String) : Bool :=
  pre.data.isPrefixOf s.data

/-- `split_for_iter`: stringify the iterable and test the two textual
prefixes; anything else raises `'Unable to transform this iterable'`. -/
def split_for_iter (g : Globals) (node : Expr) : Except PyError (Int × Int × Int) := do
  let node_str ← stringify_node g node
  if str_startswith node_str "range" then .ok (get_range node)
  else if str_startswith node_str "okl.range" then .ok (get_okl_range node)
  else .error (.transformError "Unable to transform this iterable")

/-- The step-expression branch of `stringify_For` for an integer step. -/
def forStepStr (index : String) (step : Int) : Except PyError String :=
  if step = 0 then
    .error (.transformError "Cannot have for-loop with a step size of 0")
  else if step > 0 then
    .ok (if step = 1 then "++" ++ index else index ++ " += " ++ toString step)
  else
    .ok (if step = -1 then "--" ++ index else index ++ " -= " ++ toString (-step))

/-- Statement-level AST nodes used by the translator (subset of `ast` nodes
the embedded code paths consume).  `module` is `ast.Module`. -/
inductive Stmt
  | annAssign (target : Expr) ( annotation : Expr) (value : Option Expr)
  | assign (targets : List Expr) (value : Expr)
  | augAssign (target : Expr) (op : AugOp) (value : Expr)
  | forStmt (target : Expr) (iter : Expr) (body : List Stmt)
  | returnStmt (value : Expr)
  | passStmt
  | funcDef (name : String) (args : ArgumentsNode) (returns : Option Expr)
      (decorator_list : List Expr) (body : List Stmt)
  | module (body : List Stmt)
  deriving Repr

/-- `stringify_AnnAssign`: stringify the target, record it in the innermost
scope, then emit `<annotated-target>[ = value];`. -/
def stringify_AnnAssign (g : Globals) (scope : Scope) (target : Expr)
    ( annotation : Expr) (value : Option Expr) : Except PyError (String × Scope) := do
  let var_name ← stringify_node g target
  let scope' ← add_to_scope scope var_name
  let node_str ← stringify_annotation g (some annotation) var_name
  match value with
  | some v => do
      let vs ← stringify_node g v
      .ok (node_str ++ " = " ++ vs ++ ";", scope')
  | none => .ok (node_str ++ ";", scope')

/-- `stringify_Assign`: exactly one target; a bare-`Name` target must already
be defined in some scope on the stack. -/
def stringify_Assign (g : Globals) (scope : Scope) (targets : List Expr)
    (value : Expr) : Except PyError String :=
  match targets with
  | [var] => do
      let var_str ← stringify_node g var
      let isName := match var with | .name _ => true | _ => false
      if isName && !(is_defined scope var_str) then
        .error (.transformError "Cannot handle untyped variables")
      else do
        let right ← stringify_node g value
        .ok (var_str ++ " = " ++ right ++ ";")
  | _ => .error (.transformError "Cannot handle assignment of more than 1 value")

mutual

/-- `stringify_node` restricted to statement nodes: the dispatcher's
statement entries. -/
def run_stmt (g : Globals) (scope : Scope) (indent : String) (s : Stmt) :
    Except PyError (String × Scope) :=
  match s with
  | .annAssign t a v => stringify_AnnAssign g scope t a v
  | .assign ts v => (stringify_Assign g scope ts v).map (fun str => (str, scope))
  | .augAssign t op v => (stringify_AugAssign g t op v).map (fun str => (str, scope))
  | .returnStmt v => (stringify_node g v).map (fun str => ("return " ++ str ++ ";", scope))
  | .passStmt => .ok ("", scope)
  | .forStmt target iter body => stringify_For g scope indent target iter body
  | .funcDef name args returns decorator_list body =>
      stringify_FunctionDef g scope indent name args returns decorator_list body
  | .module body => stringify_Module g scope indent body
termination_by 4 * sizeOf s + 1
decreasing_by all_goals (simp_wf; try omega)

/-- `stringify_For`: single-`Name` target, bound triple from the iterable,
step expression by the sign/magnitude of the step, then the loop body. -/
def stringify_For (g : Globals) (scope : Scope) (indent : String)
    (target iter : Expr) (body : List Stmt) : Except PyError (String × Scope) :=
  match target with
  | .name id => do
      let index ← stringify_node g (.name id)
      let (start, stop, step) ← split_for_iter g iter
      let stepStr ← forStepStr index step
      let for_str := "for (int " ++ index ++ " = " ++ toString start ++ "; " ++
        index ++ " < " ++ toString stop ++ "; " ++ stepStr ++ ")"
      let (bodyStr, scope') ← stringify_body g scope indent body
      .ok (for_str ++ bodyStr, scope')
  | _ => .error (.transformError "Can only handle one variable for the for-loop index")
termination_by 4 * sizeOf body + 3
decreasing_by all_goals simp_wf

/-- `stringify_FunctionDef`: signature without semicolon, then the body. -/
def stringify_FunctionDef (g : Globals) (scope : Scope) (indent : String)
    (name : String) (args : ArgumentsNode) (returns : Option Expr)
    (decorator_list : List Expr) (body : List Stmt) : Except PyError (String × Scope) := do
  let func_str ← stringify_function_signature g name args returns decorator_list false
  let (bodyStr, scope') ← stringify_body g scope indent body
  .ok (func_str ++ bodyStr, scope')
termination_by 4 * sizeOf body + 3
decreasing_by all_goals simp_wf

/-- `stringify_Module`: the module body as a block. -/
def stringify_Module (g : Globals) (scope : Scope) (indent : String)
    (body : List Stmt) : Except PyError (String × Scope) :=
  stringify_block g scope indent body
termination_by 4 * sizeOf body + 3
decreasing_by all_goals simp_wf

/-- The statement generator inside `stringify_block`, translating the block's
statements in order while threading the scope stack. -/
def run_stmt_list (g : Globals) (scope : Scope) (indent : String)
    (l : List Stmt) : Except PyError (List String × Scope) :=
  match l with
  | [] => .ok ([], scope)
  | s :: rest => do
      let (str, scope') ← run_stmt g scope indent s
      let (strs, scope'') ← run_stmt_list g scope' indent rest
      .ok (str :: strs, scope'')
termination_by 4 * sizeOf l
decreasing_by all_goals (simp_wf; try omega)

/-- `stringify_block`: push a fresh scope, translate the statements, join the
non-empty fragments (each prefixed by the indent) with newlines, pop. -/
def stringify_block (g : Globals) (scope : Scope) (indent : String)
    (nodes : List Stmt) : Except PyError (String × Scope) := do
  let (strs, scope') ← run_stmt_list g ([] :: scope) indent nodes
  let block_str := String.intercalate "\n"
    ((strs.filter (fun str => str ≠ "")).map (fun str => indent ++ str))
  match scope' with
  | [] => .error (.indexError "pop from empty list")
  | _ :: rest => .ok (block_str, rest)
termination_by 4 * sizeOf nodes + 1
decreasing_by all_goals simp_wf

/-- `stringify_body`: a block at one extra indent level, braced; empty bodies
render as empty braces. -/
def stringify_body (g : Globals) (scope : Scope) (indent : String)
    (nodes : List Stmt) : Except PyError (String × Scope) := do
  let (body, scope') ← stringify_block g scope (indent ++ INDENT_TAB) nodes
  if body = "" then .ok (" \x7b\x7d", scope')
  else .ok (" \x7b\n" ++ body ++ "\n" ++ indent ++ "\x7d", scope')
termination_by 4 * sizeOf nodes + 2
decreasing_by all_goals simp_wf

end

/-- Python types relevant to closure inspection: the keys of
`VALID_GLOBAL_VALUE_TYPES` plus representative types outside the table. -/
inductive PyType
  | noneType | pyBool | pyInt | pyFloat
  | npBool | npInt8 | npUint8 | npInt16 | npUint16
  | npInt32 | npUint32 | npInt64 | npUint64 | npFloat32 | npFloat64
  | pyStr | pyListType | pyDict | pyComplex
  deriving Repr, DecidableEq

/-- `VALID_GLOBAL_VALUE_TYPES`: Python type of a captured value → kernel
primitive type string; `.get` misses for types outside the dict. -/
def VALID_GLOBAL_VALUE_TYPES : PyType → Option String
  | .noneType => some "void"
  | .pyBool => some "bool"
  | .pyInt => some "int"
  | .pyFloat => some "double"
  | .npBool => some "bool"
  | .npInt8 => some "char"
  | .npUint8 => some "char"
  | .npInt16 => some "short"
  | .npUint16 => some "short"
  | .npInt32 => some "int"
  | .npUint32 => some "int"
  | .npInt64 => some "long"
  | .npUint64 => some "long"
  | .npFloat32 => some "float"
  | .npFloat64 => some "double"
  | _ => none

/-- `VALID_GLOBAL_NAMES = {'okl'}`. -/
def VALID_GLOBAL_NAMES : List String := ["okl"]

/-- `VALID_BUILTINS = {'range', 'len'}`. -/
def VALID_BUILTINS : List String := ["range", "len"]

/-- A captured non-local value seen by `inspect.getclosurevars`: either a
plain value of some Python type, or a function object.  For a function
object, `Oklifier(value)` re-runs the pipeline on it; its closure variables
and (already parsed) source tree are carried on the value. -/
inductive PyValue
  | ofType (t : PyType)
  | pyFunction (globalVars : List (String × PyValue)) (builtins : List String)
      (root : Stmt)
  deriving Repr

/-- The builtins loop of `inspect_function_closure`: every referenced builtin
must be in `VALID_BUILTINS`. -/
def inspect_builtins : List String → Except PyError Unit
  | [] => .ok ()
  | b :: rest =>
      if b ∈ VALID_BUILTINS then inspect_builtins rest
      else .error (.closureError ("Unable to transform builtin: " ++ b))

/-- State of a successfully initialised `Oklifier`: `self.globals`,
`self.functions` (name ↦ signature and source, in discovery order) and
`self.root`. -/
structure OklifierState where
  globals : Globals
  functions : List (String × String × String)
  root : Stmt
  deriving Repr

/-- `oklifier.stringify_function_signature(node=oklifier.root.body[0],
semicolon=True)`: the nested helper's forward signature, taken from the first
statement of its parsed source. -/
def signature_of_root (st : OklifierState) : Except PyError String :=
  match st.root with
  | .module [] => .error (.indexError "list index out of range")
  | .module (.funcDef name args returns decorator_list _body :: _) =>
      stringify_function_signature st.globals name args returns decorator_list true
  | _ => .error (.attributeError "name")

/-- `to_str`: blank-line-separated concatenation of all helper forward
signatures, then all helper sources, then the stringified root. -/
def to_str (st : OklifierState) : Except PyError String := do
  let (rootStr, _) ← run_stmt st.globals [] "" st.root
  .ok (String.intercalate "

"
    (st.functions.map (fun f => f.2.1) ++ st.functions.map (fun f => f.2.2) ++ [rootStr]))

mutual

/-- The globals loop of `inspect_function_closure`: a value of a type in
`VALID_GLOBAL_VALUE_TYPES` is recorded in `self.globals`; a function value is
translated by a nested `Oklifier` and recorded in `self.functions`; any other
value is tolerated only for names in `VALID_GLOBAL_NAMES`. -/
def inspect_globals : List (String × PyValue) →
    Except PyError (Globals × List (String × String × String))
  | [] => .ok ([], [])
  | (n, .ofType t) :: rest =>
      match VALID_GLOBAL_VALUE_TYPES t with
      | some type_str =>
          (inspect_globals rest).map (fun p => ((n, type_str) :: p.1, p.2))
      | none =>
          if n ∈ VALID_GLOBAL_NAMES then inspect_globals rest
          else .error (.closureError ("Unable to transform non-local variable: " ++ n))
  | (n, .pyFunction gvs bs root) :: rest => do
      let st ← oklifier_init_function gvs bs root
      let sig ← signature_of_root st
      let src ← to_str st
      let (g, fns) ← inspect_globals rest
      .ok (g, (n, sig, src) :: fns)
termination_by l => 2 * sizeOf l
decreasing_by all_goals (simp_wf; try omega)

/-- `Oklifier.__init__` on a function object whose source is already parsed
to `root`: closure inspection (globals, then builtins), then the state. -/
def oklifier_init_function (gvs : List (String × PyValue)) (bs : List String)
    (root : Stmt) : Except PyError OklifierState := do
  let (g, fns) ← inspect_globals gvs
  inspect_builtins bs
  .ok ⟨g, fns, root⟩
termination_by 2 * sizeOf gvs + 1
decreasing_by all_goals (simp_wf; try omega)

end

/-- `inspect_function_closure(func)`: globals loop then builtins loop. -/
def inspect_function_closure (gvs : List (String × PyValue)) (bs : List String) :
    Except PyError (Globals × List (String × String × String)) := do
  let (g, fns) ← inspect_globals gvs
  inspect_builtins bs
  .ok (g, fns)

/-- `Oklifier.__init__` on a function object with the source acquisition and
parsing steps kept abstract: `inspect_function_closure` runs first, and only
afterwards are `inspect.getsource` and `ast.parse` consulted. -/
def oklifier_init (gvs : List (String × PyValue)) (bs : List String)
    (getsource : Unit → String) (parse : String → Stmt) :
    Except PyError OklifierState :=
  (inspect_function_closure gvs bs).map
    (fun p => ⟨p.1, p.2, parse (getsource ())⟩)

/-- The interpreter's module global namespace, mapping a global name to its
bound value (`none` models Python `None`; an absent key is an unbound name). -/
abbrev GlobalEnv := List (String × Option Expr)

/-- Assignment to a module global: update in place or bind anew. -/
def setGlobalVar : GlobalEnv → String → Option Expr → GlobalEnv
  | [], k, v => [(k, v)]
  | (k', v') :: rest, k, v =>
      if k' = k then (k, v) :: rest else (k', v') :: setGlobalVar rest k v

/-- The module namespace after executing `__last_error_node = None` at module
level (line 97): outside any class body the name is not mangled. -/
def moduleInitEnv : GlobalEnv := [("__last_error_node", none)]

/-- `get_last_error_node`: inside `class Oklifier` the identifier
`__last_error_node` — in the `global` statement and the read alike — is
mangled to `_Oklifier__last_error_node`; reading an unbound global raises
`NameError`. -/
def get_last_error_node (env : GlobalEnv) : Except PyError (Option Expr) :=
  match env.lookup "_Oklifier__last_error_node" with
  | some v => .ok v
  | none => .error (.nameError "name _Oklifier__last_error_node is not defined")

/-- The global write performed by `raise_error` before it formats and raises:
`__last_error_node = node` inside the class body writes the mangled global
`_Oklifier__last_error_node`. -/
def raise_error_set_node (env : GlobalEnv) (node : Expr) : GlobalEnv :=
  setGlobalVar env "_Oklifier__last_error_node" (some node)


theorem lookup_setGlobalVar_self (env : GlobalEnv) (k : String) (v : Option Expr) :
    (setGlobalVar env k v).lookup k = some v := by
  induction env with
  | nil => simp [setGlobalVar, List.lookup]
  | cons p rest ih =>
      obtain ⟨k', v'⟩ := p
      by_cases h : k' = k
      · subst h
        simp [setGlobalVar, List.lookup]
      · have hb : (k == k') = false := by
          simp [beq_eq_false_iff_ne, Ne.symm h]
        simp [setGlobalVar, h, List.lookup, hb, ih]

/-- C1: contrary to the claim, a chain of two allowed comparators such as
`a < b < c` does not emit `a < b && b < c`: the conversion comprehension sits
inside the per-operator loop, so the second iteration applies the operator
table to the already-converted strings and raises an unhandled `KeyError`
on `'<'`.  A single comparison still succeeds. -/
theorem C1_chain_comparison_keyerror :
    stringify_Compare [] (.name "a") [.lt, .lt] [.name "b", .name "c"] =
      .error (.keyError "<") ∧
    stringify_Compare [] (.name "a") [.lt] [.name "b"] = .ok "a < b" :=
  ⟨rfl, rfl⟩

/-- C2: contrary to the claim, the augmented-assignment table is not the
one-to-one compound form for every operator: left shift emits `a << b`
(missing `=`), and floor division emits `a = floor(a /= b)` (the compound
`/=` re-wrapped inside the floor call).  The other table entries and the
rejection of operators outside the table behave as claimed. -/
theorem C2_augassign_formats :
    stringify_AugAssign [] (.name "a") .lshift (.name "b") = .ok "a << b" ∧
    stringify_AugAssign [] (.name "a") .floorDiv (.name "b") =
      .ok "a = floor(a /= b)" ∧
    stringify_AugAssign [] (.name "a") .add (.name "b") = .ok "a += b" ∧
    stringify_AugAssign [] (.name "a") .rshift (.name "b") = .ok "a >>= b" ∧
    stringify_AugAssign [] (.name "a") .pow (.name "b") = .ok "a = pow(a, b)" ∧
    stringify_AugAssign [] (.name "a") .bitXor (.name "b") =
      .error (.transformError "Unable to handle operator") :=
  ⟨rfl, rfl, rfl, rfl, rfl, rfl⟩

/-- C4: the emitted step expression of a counted loop is determined by the
resolved integer step as claimed: step 0 is a hard failure, step 1 emits an
increment, step k > 1 emits `index += k`, step -1 emits a decrement, and
step -k with k > 1 emits `index -= k` with the absolute magnitude. -/
theorem C4_for_step_rendering :
    (∀ index : String, forStepStr index 0 =
        .error (.transformError "Cannot have for-loop with a step size of 0")) ∧
    (∀ index : String, forStepStr index 1 = .ok ("++" ++ index)) ∧
    (∀ (index : String) (k : Int), 1 < k →
        forStepStr index k = .ok (index ++ " += " ++ toString k)) ∧
    (∀ index : String, forStepStr index (-1) = .ok ("--" ++ index)) ∧
    (∀ (index : String) (k : Int), 1 < k →
        forStepStr index (-k) = .ok (index ++ " -= " ++ toString k)) := by
  refine ⟨fun index => rfl, fun index => rfl, ?_, fun index => rfl, ?_⟩
  · intro index k hk
    have h0 : ¬ (k = 0) := by omega
    have h1 : (0:Int) < k := by omega
    have h2 : ¬ (k = 1) := by omega
    simp [forStepStr, h0, h1, h2]
  · intro index k hk
    have h0 : ¬ (-k = 0) := by omega
    have h1 : ¬ ((0:Int) < -k) := by omega
    have h2 : ¬ (-k = -1) := by omega
    simp [forStepStr, h0, h1, h2]

/-- Witness for C4 at concrete inputs, in particular the claimed behaviour
that a step of -2 emits `i -= 2`. -/
theorem C4_for_step_rendering_witness :
    forStepStr "i" (-2) = .ok "i -= 2" ∧ forStepStr "i" 2 = .ok "i += 2" :=
  ⟨C4_for_step_rendering.2.2.2.2 "i" 2 (by norm_num),
   C4_for_step_rendering.2.2.1 "i" 2 (by norm_num)⟩

/-- C5: the closure-global type mapping is bit-exact per the claimed table,
and for every width the signed and unsigned variants map to the same target
name. -/
theorem C5_type_mapping_table :
    VALID_GLOBAL_VALUE_TYPES .pyBool = some "bool" ∧
    VALID_GLOBAL_VALUE_TYPES .npBool = some "bool" ∧
    VALID_GLOBAL_VALUE_TYPES .npInt8 = some "char" ∧
    VALID_GLOBAL_VALUE_TYPES .npUint8 = some "char" ∧
    VALID_GLOBAL_VALUE_TYPES .npInt16 = some "short" ∧
    VALID_GLOBAL_VALUE_TYPES .npUint16 = some "short" ∧
    VALID_GLOBAL_VALUE_TYPES .npInt32 = some "int" ∧
    VALID_GLOBAL_VALUE_TYPES .npUint32 = some "int" ∧
    VALID_GLOBAL_VALUE_TYPES .npInt64 = some "long" ∧
    VALID_GLOBAL_VALUE_TYPES .npUint64 = some "long" ∧
    VALID_GLOBAL_VALUE_TYPES .npFloat32 = some "float" ∧
    VALID_GLOBAL_VALUE_TYPES .npFloat64 = some "double" ∧
    VALID_GLOBAL_VALUE_TYPES .pyInt = some "int" ∧
    VALID_GLOBAL_VALUE_TYPES .pyFloat = some "double" ∧
    VALID_GLOBAL_VALUE_TYPES .noneType = some "void" ∧
    VALID_GLOBAL_VALUE_TYPES .npInt8 = VALID_GLOBAL_VALUE_TYPES .npUint8 ∧
    VALID_GLOBAL_VALUE_TYPES .npInt16 = VALID_GLOBAL_VALUE_TYPES .npUint16 ∧
    VALID_GLOBAL_VALUE_TYPES .npInt32 = VALID_GLOBAL_VALUE_TYPES .npUint32 ∧
    VALID_GLOBAL_VALUE_TYPES .npInt64 = VALID_GLOBAL_VALUE_TYPES .npUint64 := by
  decide

/-- C9: the module-level initializer binds the plain global
`__last_error_node`, while the accessor and the error path read/write the
class-name-mangled global `_Oklifier__last_error_node`; before any failure
the accessor therefore raises `NameError`, and after `raise_error` stores a
node the accessor returns it. -/
theorem C9_last_error_node_mangling :
    moduleInitEnv.lookup "__last_error_node" = some none ∧
    moduleInitEnv.lookup "_Oklifier__last_error_node" = none ∧
    get_last_error_node moduleInitEnv =
      .error (.nameError "name _Oklifier__last_error_node is not defined") ∧
    (∀ (env : GlobalEnv) (node : Expr),
      get_last_error_node (raise_error_set_node env node) = .ok (some node)) := by
  refine ⟨rfl, rfl, rfl, ?_⟩
  intro env node
  unfold get_last_error_node raise_error_set_node
  rw [lookup_setGlobalVar_self]

/-- Witness for C9 at a concrete environment and node. -/
theorem C9_last_error_node_mangling_witness :
    get_last_error_node (raise_error_set_node moduleInitEnv (.name "z")) =
      .ok (some (.name "z")) :=
  C9_last_error_node_mangling.2.2.2 moduleInitEnv (.name "z")

/-- C10: a comparison `a <= b` raises TranslateError
`'Cannot handle comparison operator'` because the comparator table omits
`ast.LtE`, while `<`, `>`, `>=`, `==` and `!=` are present and accepted. -/
theorem C10_lte_comparison_rejected :
    (∀ a b : String, stringify_Compare [] (.name a) [.ltE] [.name b] =
      .error (.transformError "Cannot handle comparison operator")) ∧
    COMPARE_OP_STR .ltE = none ∧
    stringify_Compare [] (.name "a") [.lt] [.name "b"] = .ok "a < b" ∧
    stringify_Compare [] (.name "a") [.gt] [.name "b"] = .ok "a > b" ∧
    stringify_Compare [] (.name "a") [.gtE] [.name "b"] = .ok "a >= b" ∧
    stringify_Compare [] (.name "a") [.eq] [.name "b"] = .ok "a == b" ∧
    stringify_Compare [] (.name "a") [.notEq] [.name "b"] = .ok "a != b" ∧
    COMPARE_OP_STR .lt = some "<" ∧
    COMPARE_OP_STR .gt = some ">" ∧
    COMPARE_OP_STR .gtE = some ">=" ∧
    COMPARE_OP_STR .eq = some "==" ∧
    COMPARE_OP_STR .notEq = some "!=" :=
  ⟨fun _ _ => rfl, rfl, rfl, rfl, rfl, rfl, rfl, rfl, rfl, rfl, rfl, rfl⟩

/-- Witness for C10 at concrete operand names. -/
theorem C10_lte_comparison_rejected_witness :
    stringify_Compare [] (.name "x") [.ltE] [.name "y"] =
      .error (.transformError "Cannot handle comparison operator") :=
  C10_lte_comparison_rejected.1 "x" "y"

theorem exceptBind_ok {ε α β : Type} (x : Except ε α) (f : α → Except ε β) (b : β) :
    (x >>= f) = .ok b ↔ ∃ a, x = .ok a ∧ f a = .ok b := by
  cases x <;> simp [Bind.bind, Except.bind]

theorem exceptMap_ok {ε α β : Type} (x : Except ε α) (f : α → β) (b : β) :
    x.map f = .ok b ↔ ∃ a, x = .ok a ∧ f a = b := by
  cases x <;> simp [Except.map]

/-- C3: an iterable whose rendered text starts with `range` or with
`okl.range` always resolves to the bound triple (0, 10, 1), whatever its
actual arguments, so `for i in range(n)` and `for i in range(2, 100)` emit
the header `for (int i = 0; i < 10; ++i)`; an iterable matching neither
prefix raises TranslateError, and a non-`Name` loop target raises
TranslateError. -/
theorem C3_fixed_range_bounds :
    (∀ (g : Globals) (iter : Expr) (s : String), stringify_node g iter = .ok s →
       str_startswith s "range" = true → split_for_iter g iter = .ok (0, 10, 1)) ∧
    (∀ (g : Globals) (iter : Expr) (s : String), stringify_node g iter = .ok s →
       str_startswith s "okl.range" = true → split_for_iter g iter = .ok (0, 10, 1)) ∧
    (run_stmt [] [] "" (.forStmt (.name "i") (.call (.name "range") [.name "n"]) []) =
       .ok ("for (int i = 0; i < 10; ++i) \x7b\x7d", [])) ∧
    (run_stmt [] [] "" (.forStmt (.name "i") (.call (.name "range") [.num 2, .num 100]) []) =
       .ok ("for (int i = 0; i < 10; ++i) \x7b\x7d", [])) ∧
    (∀ (g : Globals) (iter : Expr) (s : String), stringify_node g iter = .ok s →
       str_startswith s "range" = false → str_startswith s "okl.range" = false →
       split_for_iter g iter = .error (.transformError "Unable to transform this iterable")) ∧
    (∀ (g : Globals) (scope : Scope) (indent : String) (target iter : Expr)
       (body : List Stmt), (∀ id, target ≠ Expr.name id) →
       run_stmt g scope indent (.forStmt target iter body) =
         .error (.transformError "Can only handle one variable for the for-loop index")) := by
  refine ⟨?_, ?_, ?_, ?_, ?_, ?_⟩
  · intro g iter s h hr
    simp [split_for_iter, h, hr, get_range, Bind.bind, Except.bind]
  · intro g iter s h hr
    by_cases hr1 : str_startswith s "range"
    · simp [split_for_iter, h, hr1, get_range, Bind.bind, Except.bind]
    · simp [split_for_iter, h, hr1, hr, get_okl_range, Bind.bind, Except.bind]
  · simp +decide [run_stmt, stringify_For, stringify_body, stringify_block,
      run_stmt_list, split_for_iter, stringify_node, stringify_node_list,
      stringify_Name, str_startswith, forStepStr, get_range, INDENT_TAB,
      Bind.bind, Except.bind]
  · simp +decide [run_stmt, stringify_For, stringify_body, stringify_block,
      run_stmt_list, split_for_iter, stringify_node, stringify_node_list,
      stringify_Name, str_startswith, forStepStr, get_range, INDENT_TAB,
      Bind.bind, Except.bind]
  · intro g iter s h hr1 hr2
    simp [split_for_iter, h, hr1, hr2, Bind.bind, Except.bind]
  · intro g scope indent target iter body hne
    cases target with
    | name id => exact absurd rfl (hne id)
    | num n => simp [run_stmt, stringify_For]
    | attr v a => simp [run_stmt, stringify_For]
    | call f args => simp [run_stmt, stringify_For]

/-- Witness for C3 at concrete inputs: the prefix rules applied to
`range(n)` and `okl.range(3)`, the failure rules applied to `foo(3)` and to
a numeric loop target. -/
theorem C3_fixed_range_bounds_witness :
    split_for_iter [] (.call (.name "range") [.name "n"]) = .ok (0, 10, 1) ∧
    split_for_iter [] (.call (.attr (.name "okl") "range") [.num 3]) = .ok (0, 10, 1) ∧
    split_for_iter [] (.call (.name "foo") [.num 3]) =
      .error (.transformError "Unable to transform this iterable") ∧
    run_stmt [] [] "" (.forStmt (.num 0) (.call (.name "range") [.name "n"]) []) =
      .error (.transformError "Can only handle one variable for the for-loop index") :=
  ⟨C3_fixed_range_bounds.1 [] _ "range(n)" rfl rfl,
   C3_fixed_range_bounds.2.1 [] _ "okl.range(3)" rfl rfl,
   C3_fixed_range_bounds.2.2.2.2.1 [] _ "foo(3)" rfl rfl rfl,
   C3_fixed_range_bounds.2.2.2.2.2 [] [] "" (.num 0) _ []
     (fun _ h => Expr.noConfusion h)⟩

/-- A captured global that the inspection loop cannot classify: a plain value
whose Python type is outside the table, under a name outside
`VALID_GLOBAL_NAMES`.  Function values never satisfy this. -/
def badClosureGlobal (p : String × PyValue) : Prop :=
  match p.2 with
  | .ofType t => VALID_GLOBAL_VALUE_TYPES t = none ∧ p.1 ∉ VALID_GLOBAL_NAMES
  | .pyFunction _ _ _ => False

theorem inspect_builtins_cases (bs : List String) :
    (inspect_builtins bs = .ok () ∧ ∀ b ∈ bs, b ∈ VALID_BUILTINS) ∨
    ((∃ msg, inspect_builtins bs = .error (.closureError msg)) ∧
      ∃ b ∈ bs, b ∉ VALID_BUILTINS) := by
  induction bs with
  | nil => exact Or.inl ⟨rfl, by simp⟩
  | cons b rest ih =>
      by_cases hb : b ∈ VALID_BUILTINS
      · rcases ih with ⟨hok, hall⟩ | ⟨⟨msg, herr⟩, hbad⟩
        · refine Or.inl ⟨?_, ?_⟩
          · simpa [inspect_builtins, hb] using hok
          · intro x hx
            rcases List.mem_cons.mp hx with hx | hx
            · exact hx ▸ hb
            · exact hall x hx
        · refine Or.inr ⟨⟨msg, ?_⟩, ?_⟩
          · simpa [inspect_builtins, hb] using herr
          · exact ⟨_, List.mem_cons_of_mem _ hbad.choose_spec.1, hbad.choose_spec.2⟩
      · refine Or.inr ⟨⟨"Unable to transform builtin: " ++ b, ?_⟩, b, List.mem_cons_self b rest, hb⟩
        simp [inspect_builtins, hb]

theorem inspect_globals_cases (gvs : List (String × PyValue))
    (hfn : ∀ p ∈ gvs, ∀ a b c, p.2 ≠ PyValue.pyFunction a b c) :
    ((∃ r, inspect_globals gvs = .ok r) ∧ ∀ p ∈ gvs, ¬ badClosureGlobal p) ∨
    ((∃ msg, inspect_globals gvs = .error (.closureError msg)) ∧
      ∃ p ∈ gvs, badClosureGlobal p) := by
  induction gvs with
  | nil => exact Or.inl ⟨⟨([], []), by simp [inspect_globals]⟩, by simp⟩
  | cons p rest ih =>
      obtain ⟨n, v⟩ := p
      have hrest : ∀ q ∈ rest, ∀ a b c, q.2 ≠ PyValue.pyFunction a b c :=
        fun q hq => hfn q (List.mem_cons_of_mem _ hq)
      cases v with
      | pyFunction a b c =>
          exact absurd rfl (hfn (n, .pyFunction a b c) (List.mem_cons_self _ _) a b c)
      | ofType t =>
          cases htable : VALID_GLOBAL_VALUE_TYPES t with
          | some ts =>
              rcases ih hrest with ⟨⟨r, hok⟩, hnobad⟩ | ⟨⟨msg, herr⟩, hbad⟩
              · refine Or.inl ⟨⟨((n, ts) :: r.1, r.2), ?_⟩, ?_⟩
                · simp [inspect_globals, htable, hok, Except.map]
                · intro q hq
                  rcases List.mem_cons.mp hq with hq | hq
                  · subst hq
                    simp [badClosureGlobal, htable]
                  · exact hnobad q hq
              · refine Or.inr ⟨⟨msg, ?_⟩, ?_⟩
                · simp [inspect_globals, htable, herr, Except.map]
                · exact ⟨_, List.mem_cons_of_mem _ hbad.choose_spec.1, hbad.choose_spec.2⟩
          | none =>
              by_cases hname : n ∈ VALID_GLOBAL_NAMES
              · rcases ih hrest with ⟨⟨r, hok⟩, hnobad⟩ | ⟨⟨msg, herr⟩, hbad⟩
                · refine Or.inl ⟨⟨r, ?_⟩, ?_⟩
                  · simp [inspect_globals, htable, hname, hok]
                  · intro q hq
                    rcases List.mem_cons.mp hq with hq | hq
                    · subst hq
                      simp [badClosureGlobal, hname]
                    · exact hnobad q hq
                · refine Or.inr ⟨⟨msg, ?_⟩, ?_⟩
                  · simp [inspect_globals, htable, hname, herr]
                  · exact ⟨_, List.mem_cons_of_mem _ hbad.choose_spec.1, hbad.choose_spec.2⟩
              · refine Or.inr ⟨⟨"Unable to transform non-local variable: " ++ n, ?_⟩,
                  (n, .ofType t), List.mem_cons_self _ _, ?_⟩
                · simp [inspect_globals, htable, hname]
                · exact ⟨htable, hname⟩

/-- C6 (amended): for a function none of whose captured globals is itself a
function value, closure inspection raises ClosureError if and only if some
captured global is a non-function value of unknown type under a name other
than the allow-listed `okl`, or some referenced builtin is outside
`{range, len}`; and when translating a function this inspection runs and can
fail before the source is acquired or parsed. -/
theorem C6_closure_error_characterisation :
    (∀ (gvs : List (String × PyValue)) (bs : List String),
       (∀ p ∈ gvs, ∀ a b c, p.2 ≠ PyValue.pyFunction a b c) →
       ((∃ msg, inspect_function_closure gvs bs = .error (.closureError msg)) ↔
         ((∃ p ∈ gvs, badClosureGlobal p) ∨ (∃ b ∈ bs, b ∉ VALID_BUILTINS)))) ∧
    (∀ (gvs : List (String × PyValue)) (bs : List String) (e : PyError),
       inspect_function_closure gvs bs = .error e →
       ∀ (getsource : Unit → String) (parse : String → Stmt),
         oklifier_init gvs bs getsource parse = .error e) := by
  constructor
  · intro gvs bs hfn
    constructor
    · rintro ⟨msg, hmsg⟩
      rcases inspect_globals_cases gvs hfn with ⟨⟨r, hok⟩, hnobad⟩ | ⟨⟨m2, herr⟩, hbad⟩
      · rcases inspect_builtins_cases bs with ⟨hbok, hall⟩ | ⟨⟨m3, hberr⟩, hbadb⟩
        · obtain ⟨g0, f0⟩ := r
          simp [inspect_function_closure, hok, hbok, Bind.bind, Except.bind] at hmsg
        · exact Or.inr hbadb
      · exact Or.inl hbad
    · intro hdisj
      rcases inspect_globals_cases gvs hfn with ⟨⟨r, hok⟩, hnobad⟩ | ⟨⟨m2, herr⟩, hbad⟩
      · have hbadb : ∃ b ∈ bs, b ∉ VALID_BUILTINS := by
          rcases hdisj with hbadg | hbadb
          · exact absurd hbadg.choose_spec.2 (hnobad _ hbadg.choose_spec.1)
          · exact hbadb
        rcases inspect_builtins_cases bs with ⟨hbok, hall⟩ | ⟨⟨m3, hberr⟩, _⟩
        · exact absurd (hall _ hbadb.choose_spec.1) hbadb.choose_spec.2
        · obtain ⟨g0, f0⟩ := r
          exact ⟨m3, by simp [inspect_function_closure, hok, hberr, Bind.bind, Except.bind]⟩
      · exact ⟨m2, by simp [inspect_function_closure, herr, Bind.bind, Except.bind]⟩
  · intro gvs bs e h getsource parse
    simp [oklifier_init, h, Except.map]

/-- C6: counterexample to the claim as stated — a function whose only
captured global is itself a function (so none of the claim's conditions
holds: every global is a function value and no builtin is referenced), yet
inspection raises ClosureError, because the nested helper's own closure has
an unsupported non-local and the failure propagates through the enclosing
inspection. -/
theorem C6_nested_closure_error :
    inspect_function_closure
        [("f", .pyFunction [("s", .ofType .pyStr)] [] (.module []))] [] =
      .error (.closureError "Unable to transform non-local variable: s") ∧
    ∀ p ∈ ([("f", PyValue.pyFunction [("s", PyValue.ofType .pyStr)] [] (.module []))] :
        List (String × PyValue)), ¬ badClosureGlobal p := by
  constructor
  · simp +decide [inspect_function_closure, inspect_globals,
      oklifier_init_function, inspect_builtins, Bind.bind, Except.bind,
      VALID_GLOBAL_VALUE_TYPES, VALID_GLOBAL_NAMES]
  · intro p hp
    rcases List.mem_singleton.mp hp with rfl
    simp [badClosureGlobal]

/-- Witness for C6 at concrete inputs: a bad direct global makes inspection
fail with ClosureError, and initialisation then fails identically for every
source/parse pair, i.e. before parsing. -/
theorem C6_closure_error_characterisation_witness :
    (∃ msg, inspect_function_closure [("s", .ofType .pyStr)] [] =
      .error (.closureError msg)) ∧
    oklifier_init [("s", .ofType .pyStr)] [] (fun _ => "src") (fun _ => .module []) =
      .error (.closureError "Unable to transform non-local variable: s") := by
  have hfn : ∀ p ∈ ([("s", PyValue.ofType .pyStr)] : List (String × PyValue)),
      ∀ a b c, p.2 ≠ PyValue.pyFunction a b c := by
    intro p hp a b c
    rcases List.mem_singleton.mp hp with rfl
    simp
  constructor
  · exact (C6_closure_error_characterisation.1 _ _ hfn).mpr
      (Or.inl ⟨("s", .ofType .pyStr), List.mem_singleton.mpr rfl, by decide, by decide⟩)
  · have h : inspect_function_closure [("s", PyValue.ofType .pyStr)] [] =
        .error (.closureError "Unable to transform non-local variable: s") := by
      simp +decide [inspect_function_closure, inspect_globals, inspect_builtins,
        Bind.bind, Except.bind, VALID_GLOBAL_VALUE_TYPES, VALID_GLOBAL_NAMES]
    exact C6_closure_error_characterisation.2 _ _ _ h _ _

theorem stringify_AnnAssign_ok {g : Globals} {scope : Scope} {t a : Expr}
    {v : Option Expr} {out : String} {scope' : Scope}
    (h : stringify_AnnAssign g scope t a v = .ok (out, scope')) :
    ∃ vn top rest, stringify_node g t = .ok vn ∧ scope = top :: rest ∧
      scope' = top.insert vn :: rest := by
  unfold stringify_AnnAssign at h
  cases hsn : stringify_node g t with
  | error e => simp [hsn, Bind.bind, Except.bind] at h
  | ok vn =>
      cases scope with
      | nil => simp [hsn, add_to_scope, Bind.bind, Except.bind] at h
      | cons top rest =>
          refine ⟨vn, top, rest, rfl, rfl, ?_⟩
          cases v with
          | none =>
              cases hann : stringify_annotation g (some a) vn with
              | error e => simp [hsn, hann, add_to_scope, Bind.bind, Except.bind] at h
              | ok ns =>
                  simp [hsn, hann, add_to_scope, Bind.bind, Except.bind] at h
                  exact h.2.symm
          | some vv =>
              cases hann : stringify_annotation g (some a) vn with
              | error e => simp [hsn, hann, add_to_scope, Bind.bind, Except.bind] at h
              | ok ns =>
                  cases hv : stringify_node g vv with
                  | error e =>
                      simp [hsn, hann, hv, add_to_scope, Bind.bind, Except.bind] at h
                  | ok vs =>
                      simp [hsn, hann, hv, add_to_scope, Bind.bind, Except.bind] at h
                      exact h.2.symm

mutual

theorem run_stmt_scope (g : Globals) (scope : Scope) (indent : String) (s : Stmt)
    (out : String) (scope' : Scope)
    (h : run_stmt g scope indent s = .ok (out, scope')) :
    scope'.drop 1 = scope.drop 1 ∧ scope'.length = scope.length ∧
      ((∀ t a v, s ≠ Stmt.annAssign t a v) → scope' = scope) := by
  cases s with
  | annAssign t a v =>
      have h' : stringify_AnnAssign g scope t a v = .ok (out, scope') := by
        simpa [run_stmt] using h
      obtain ⟨vn, top, rest, hsn, hscope, hscope'⟩ := stringify_AnnAssign_ok h'
      subst hscope
      subst hscope'
      exact ⟨rfl, rfl, fun hne => absurd rfl (hne t a v)⟩
  | assign ts v =>
      have h' : (stringify_Assign g scope ts v).map (fun str => (str, scope)) =
          .ok (out, scope') := by simpa [run_stmt] using h
      obtain ⟨str, _, hpair⟩ := (exceptMap_ok _ _ _).mp h'
      obtain ⟨-, rfl⟩ := Prod.mk.injEq .. ▸ hpair
      exact ⟨rfl, rfl, fun _ => rfl⟩
  | augAssign t op v =>
      have h' : (stringify_AugAssign g t op v).map (fun str => (str, scope)) =
          .ok (out, scope') := by simpa [run_stmt] using h
      obtain ⟨str, _, hpair⟩ := (exceptMap_ok _ _ _).mp h'
      obtain ⟨-, rfl⟩ := Prod.mk.injEq .. ▸ hpair
      exact ⟨rfl, rfl, fun _ => rfl⟩
  | returnStmt v =>
      have h' : (stringify_node g v).map
          (fun str => ("return " ++ str ++ ";", scope)) = .ok (out, scope') := by
        simpa [run_stmt] using h
      obtain ⟨str, _, hpair⟩ := (exceptMap_ok _ _ _).mp h'
      obtain ⟨-, rfl⟩ := Prod.mk.injEq .. ▸ hpair
      exact ⟨rfl, rfl, fun _ => rfl⟩
  | passStmt =>
      have h' : (Except.ok ("", scope) : Except PyError (String × Scope)) =
          .ok (out, scope') := by simpa [run_stmt] using h
      obtain ⟨-, rfl⟩ := Prod.mk.injEq .. ▸ (Except.ok.injEq .. ▸ h')
      exact ⟨rfl, rfl, fun _ => rfl⟩
  | forStmt target iter body =>
      have h' : stringify_For g scope indent target iter body = .ok (out, scope') := by
        simpa [run_stmt] using h
      have heq := stringify_For_scope g scope indent target iter body out scope' h'
      exact ⟨by rw [heq], by rw [heq], fun _ => heq⟩
  | funcDef name args returns decorator_list body =>
      have h' : stringify_FunctionDef g scope indent name args returns decorator_list body =
          .ok (out, scope') := by simpa [run_stmt] using h
      have heq := stringify_FunctionDef_scope g scope indent name args returns
        decorator_list body out scope' h'
      exact ⟨by rw [heq], by rw [heq], fun _ => heq⟩
  | module body =>
      have h' : stringify_Module g scope indent body = .ok (out, scope') := by
        simpa [run_stmt] using h
      have heq := stringify_Module_scope g scope indent body out scope' h'
      exact ⟨by rw [heq], by rw [heq], fun _ => heq⟩
termination_by 4 * sizeOf s + 2
decreasing_by all_goals (simp_wf; try subst_vars; try simp; try omega)

theorem stringify_For_scope (g : Globals) (scope : Scope) (indent : String)
    (target iter : Expr) (body : List Stmt) (out : String) (scope' : Scope)
    (h : stringify_For g scope indent target iter body = .ok (out, scope')) :
    scope' = scope := by
  cases target with
  | name id =>
      rw [stringify_For] at h
      cases hsp : split_for_iter g iter with
      | error e => simp [hsp, stringify_node, Bind.bind, Except.bind] at h
      | ok trip =>
          obtain ⟨start, stop, step⟩ := trip
          cases hst : forStepStr (stringify_Name g id) step with
          | error e =>
              simp [hsp, hst, stringify_node, Bind.bind, Except.bind] at h
          | ok stepStr =>
              cases hb : stringify_body g scope indent body with
              | error e =>
                  simp [hsp, hst, hb, stringify_node, Bind.bind, Except.bind] at h
              | ok pr =>
                  obtain ⟨bodyStr, scope2⟩ := pr
                  have hsc :=
                    stringify_body_scope g scope indent body bodyStr scope2 hb
                  simp [hsp, hst, hb, stringify_node, Bind.bind, Except.bind] at h
                  rw [← h.2, hsc]
  | num n => simp [stringify_For] at h
  | attr v a => simp [stringify_For] at h
  | call f args => simp [stringify_For] at h
termination_by 4 * sizeOf body + 4
decreasing_by all_goals simp_wf

theorem stringify_FunctionDef_scope (g : Globals) (scope : Scope) (indent : String)
    (name : String) (args : ArgumentsNode) (returns : Option Expr)
    (decorator_list : List Expr) (body : List Stmt) (out : String) (scope' : Scope)
    (h : stringify_FunctionDef g scope indent name args returns decorator_list body =
      .ok (out, scope')) : scope' = scope := by
  rw [stringify_FunctionDef] at h
  cases hsig : stringify_function_signature g name args returns decorator_list false with
  | error e => simp [hsig, Bind.bind, Except.bind] at h
  | ok func_str =>
      cases hb : stringify_body g scope indent body with
      | error e => simp [hsig, hb, Bind.bind, Except.bind] at h
      | ok pr =>
          obtain ⟨bodyStr, scope2⟩ := pr
          have hsc := stringify_body_scope g scope indent body bodyStr scope2 hb
          simp [hsig, hb, Bind.bind, Except.bind] at h
          rw [← h.2, hsc]
termination_by 4 * sizeOf body + 4
decreasing_by all_goals simp_wf

theorem stringify_Module_scope (g : Globals) (scope : Scope) (indent : String)
    (body : List Stmt) (out : String) (scope' : Scope)
    (h : stringify_Module g scope indent body = .ok (out, scope')) :
    scope' = scope := by
  rw [stringify_Module] at h
  exact stringify_block_scope g scope indent body out scope' h
termination_by 4 * sizeOf body + 4
decreasing_by all_goals simp_wf

theorem run_stmt_list_scope (g : Globals) (scope : Scope) (indent : String)
    (l : List Stmt) (strs : List String) (scope' : Scope)
    (h : run_stmt_list g scope indent l = .ok (strs, scope')) :
    scope'.drop 1 = scope.drop 1 ∧ scope'.length = scope.length := by
  cases l with
  | nil =>
      rw [run_stmt_list] at h
      obtain ⟨-, rfl⟩ := Prod.mk.injEq .. ▸ (Except.ok.injEq .. ▸ h)
      exact ⟨rfl, rfl⟩
  | cons s rest =>
      rw [run_stmt_list] at h
      cases h1 : run_stmt g scope indent s with
      | error e => simp [h1, Bind.bind, Except.bind] at h
      | ok pr1 =>
          obtain ⟨str1, scope1⟩ := pr1
          cases h2 : run_stmt_list g scope1 indent rest with
          | error e => simp [h1, h2, Bind.bind, Except.bind] at h
          | ok pr2 =>
              obtain ⟨strs2, scope2⟩ := pr2
              have e1 := run_stmt_scope g scope indent s str1 scope1 h1
              have e2 := run_stmt_list_scope g scope1 indent rest strs2 scope2 h2
              simp [h1, h2, Bind.bind, Except.bind] at h
              rw [← h.2]
              exact ⟨e2.1.trans e1.1, e2.2.trans e1.2.1⟩
termination_by 4 * sizeOf l + 1
decreasing_by all_goals (simp_wf; try subst_vars; try simp; try omega)

theorem stringify_block_scope (g : Globals) (scope : Scope) (indent : String)
    (nodes : List Stmt) (out : String) (scope' : Scope)
    (h : stringify_block g scope indent nodes = .ok (out, scope')) :
    scope' = scope := by
  rw [stringify_block] at h
  cases hl : run_stmt_list g ([] :: scope) indent nodes with
  | error e => simp [hl, Bind.bind, Except.bind] at h
  | ok pr =>
      obtain ⟨strs, scope2⟩ := pr
      have e2 := run_stmt_list_scope g ([] :: scope) indent nodes strs scope2 hl
      cases scope2 with
      | nil => simp [hl, Bind.bind, Except.bind] at h
      | cons top2 rest2 =>
          simp [hl, Bind.bind, Except.bind] at h
          rw [← h.2]
          simpa using e2.1
termination_by 4 * sizeOf nodes + 2
decreasing_by all_goals simp_wf

theorem stringify_body_scope (g : Globals) (scope : Scope) (indent : String)
    (nodes : List Stmt) (out : String) (scope' : Scope)
    (h : stringify_body g scope indent nodes = .ok (out, scope')) :
    scope' = scope := by
  rw [stringify_body] at h
  cases hb : stringify_block g scope (indent ++ INDENT_TAB) nodes with
  | error e => simp [hb, Bind.bind, Except.bind] at h
  | ok pr =>
      obtain ⟨body, scope2⟩ := pr
      have e2 := stringify_block_scope g scope (indent ++ INDENT_TAB) nodes body scope2 hb
      by_cases hempty : body = ""
      · simp [hb, hempty, Bind.bind, Except.bind] at h
        rw [← h.2, e2]
      · simp [hb, hempty, Bind.bind, Except.bind] at h
        rw [← h.2, e2]
termination_by 4 * sizeOf nodes + 3
decreasing_by all_goals simp_wf

end

/-- C7: the scope-stack discipline — a name is defined exactly when it is a
member of some declaration set on the stack; a plain assignment with more
than one target raises TranslateError; a plain assignment to an undeclared
bare name raises TranslateError; every successfully translated non-annotated
statement leaves the scope stack unchanged; and an annotated assignment adds
exactly its target name to the innermost (top) set. -/
theorem C7_scope_discipline :
    (∀ (scope : Scope) (v : String),
       is_defined scope v = true ↔ ∃ s ∈ scope, v ∈ s) ∧
    (∀ (g : Globals) (scope : Scope) (indent : String) (targets : List Expr)
       (value : Expr), targets.length ≠ 1 →
       run_stmt g scope indent (.assign targets value) =
         .error (.transformError "Cannot handle assignment of more than 1 value")) ∧
    (∀ (g : Globals) (scope : Scope) (indent : String) (id : String) (value : Expr),
       is_defined scope (stringify_Name g id) = false →
       run_stmt g scope indent (.assign [.name id] value) =
         .error (.transformError "Cannot handle untyped variables")) ∧
    (∀ (g : Globals) (scope : Scope) (indent : String) (s : Stmt) (out : String)
       (scope' : Scope), run_stmt g scope indent s = .ok (out, scope') →
       (∀ t a v, s ≠ Stmt.annAssign t a v) → scope' = scope) ∧
    (∀ (g : Globals) (scope : Scope) (indent : String) (t a : Expr)
       (v : Option Expr) (out : String) (scope' : Scope),
       run_stmt g scope indent (.annAssign t a v) = .ok (out, scope') →
       ∃ vn top rest, stringify_node g t = .ok vn ∧ scope = top :: rest ∧
         scope' = top.insert vn :: rest) := by
  refine ⟨?_, ?_, ?_, ?_, ?_⟩
  · intro scope v
    simp [is_defined]
  · intro g scope indent targets value hlen
    cases targets with
    | nil => simp [run_stmt, stringify_Assign, Except.map]
    | cons t1 rest =>
        cases rest with
        | nil => simp at hlen
        | cons t2 rest2 => simp [run_stmt, stringify_Assign, Except.map]
  · intro g scope indent id value hdef
    simp [run_stmt, stringify_Assign, stringify_node, hdef, Except.map,
      Bind.bind, Except.bind]
  · intro g scope indent s out scope' h hne
    exact (run_stmt_scope g scope indent s out scope' h).2.2 hne
  · intro g scope indent t a v out scope' h
    exact stringify_AnnAssign_ok (by simpa [run_stmt] using h)

/-- Witness for C7 at concrete inputs: a defined-name membership, the two
assignment failures, a successful plain assignment leaving the stack
unchanged, and an annotated assignment extending the top set. -/
theorem C7_scope_discipline_witness :
    is_defined [["x"], ["y"]] "y" = true ∧
    run_stmt [] [] "" (.assign [.name "a", .name "b"] (.num 1)) =
      .error (.transformError "Cannot handle assignment of more than 1 value") ∧
    run_stmt [] [] "" (.assign [.name "x"] (.num 6)) =
      .error (.transformError "Cannot handle untyped variables") ∧
    (run_stmt [] [["x"]] "" (.assign [.name "x"] (.num 6)) =
        .ok ("x = 6;", [["x"]]) →
      ∀ scope', run_stmt [] [["x"]] "" (.assign [.name "x"] (.num 6)) =
        .ok ("x = 6;", scope') → scope' = [["x"]]) ∧
    (∃ vn top rest, stringify_node [] (.name "x") = .ok vn ∧
      ([[]] : Scope) = top :: rest ∧
      ([["x"]] : Scope) = top.insert vn :: rest) := by
  refine ⟨?_, ?_, ?_, ?_, ?_⟩
  · exact (C7_scope_discipline.1 [["x"], ["y"]] "y").mpr ⟨["y"], by simp, by simp⟩
  · exact C7_scope_discipline.2.1 [] [] "" [.name "a", .name "b"] (.num 1) (by simp)
  · exact C7_scope_discipline.2.2.1 [] [] "" "x" (.num 6) rfl
  · intro _ scope' h
    exact C7_scope_discipline.2.2.2.1 [] [["x"]] "" _ "x = 6;" scope' h
      (fun t a v hne => Stmt.noConfusion hne)
  · have h : run_stmt [] [[]] "" (.annAssign (.name "x") (.name "int") (some (.num 5))) =
        .ok ("int x = 5;", [["x"]]) := by
      simp +decide [run_stmt, stringify_AnnAssign, add_to_scope, stringify_annotation,
        stringify_node, stringify_Name, py_to_c_type, Bind.bind, Except.bind]
    obtain ⟨vn, top, rest, hsn, hsc, hsc'⟩ :=
      C7_scope_discipline.2.2.2.2 [] [[]] "" (.name "x") (.name "int")
        (some (.num 5)) "int x = 5;" [["x"]] h
    exact ⟨vn, top, rest, hsn, hsc, hsc'⟩

theorem stringify_function_signature_semicolon {g : Globals} {name : String}
    {args : ArgumentsNode} {returns : Option Expr} {decorator_list : List Expr}
    {s : String}
    (h : stringify_function_signature g name args returns decorator_list true = .ok s) :
    ∃ t, s = t ++ ";" := by
  unfold stringify_function_signature at h
  simp only [Bind.bind, Except.bind] at h
  repeat' split at h
  all_goals cases h
  all_goals first
  | exact ⟨_, rfl⟩
  | simp_all

theorem signature_of_root_semicolon {st : OklifierState} {sig : String}
    (h : signature_of_root st = .ok sig) : ∃ t, sig = t ++ ";" := by
  unfold signature_of_root at h
  cases hr : st.root with
  | module body =>
      cases body with
      | nil => rw [hr] at h; simp at h
      | cons s rest =>
          cases s with
          | funcDef name args returns decorator_list b =>
              rw [hr] at h
              exact stringify_function_signature_semicolon h
          | annAssign t a v => rw [hr] at h; simp at h
          | assign ts v => rw [hr] at h; simp at h
          | augAssign t op v => rw [hr] at h; simp at h
          | forStmt t i b => rw [hr] at h; simp at h
          | returnStmt v => rw [hr] at h; simp at h
          | passStmt => rw [hr] at h; simp at h
          | module b => rw [hr] at h; simp at h
  | annAssign t a v => rw [hr] at h; simp at h
  | assign ts v => rw [hr] at h; simp at h
  | augAssign t op v => rw [hr] at h; simp at h
  | forStmt t i b => rw [hr] at h; simp at h
  | returnStmt v => rw [hr] at h; simp at h
  | passStmt => rw [hr] at h; simp at h
  | funcDef name args returns decorator_list b => rw [hr] at h; simp at h

theorem inspect_globals_cons_prim {n : String} {t : PyType} {ts : String}
    {rest : List (String × PyValue)} {g0 : Globals}
    {fns : List (String × String × String)}
    (htable : VALID_GLOBAL_VALUE_TYPES t = some ts)
    (h : inspect_globals ((n, PyValue.ofType t) :: rest) = .ok (g0, fns)) :
    ∃ r, inspect_globals rest = .ok r ∧ g0 = (n, ts) :: r.1 ∧ fns = r.2 := by
  rw [inspect_globals] at h
  rw [htable] at h
  cases hr : inspect_globals rest with
  | error e => rw [hr] at h; simp [Except.map] at h
  | ok r =>
      rw [hr] at h
      simp [Except.map] at h
      exact ⟨r, by simp [hr], h.1.symm, h.2.symm⟩

theorem inspect_globals_cons_skip {n : String} {t : PyType}
    {rest : List (String × PyValue)} {g0 : Globals}
    {fns : List (String × String × String)}
    (htable : VALID_GLOBAL_VALUE_TYPES t = none) (hname : n ∈ VALID_GLOBAL_NAMES)
    (h : inspect_globals ((n, PyValue.ofType t) :: rest) = .ok (g0, fns)) :
    inspect_globals rest = .ok (g0, fns) := by
  rw [inspect_globals] at h
  rw [htable] at h
  simpa [hname] using h

theorem inspect_globals_cons_function {n : String}
    {gvs : List (String × PyValue)} {bs : List String} {root : Stmt}
    {rest : List (String × PyValue)} {g0 : Globals}
    {fns : List (String × String × String)}
    (h : inspect_globals ((n, PyValue.pyFunction gvs bs root) :: rest) =
      .ok (g0, fns)) :
    ∃ st sig src r, oklifier_init_function gvs bs root = .ok st ∧
      signature_of_root st = .ok sig ∧ to_str st = .ok src ∧
      inspect_globals rest = .ok r ∧ g0 = r.1 ∧ fns = (n, sig, src) :: r.2 := by
  rw [inspect_globals] at h
  cases hst : oklifier_init_function gvs bs root with
  | error e => rw [hst] at h; simp [Bind.bind, Except.bind] at h
  | ok st =>
      rw [hst] at h
      cases hsig : signature_of_root st with
      | error e => simp [hsig, Bind.bind, Except.bind] at h
      | ok sig =>
          cases hsrc : to_str st with
          | error e => simp [hsig, hsrc, Bind.bind, Except.bind] at h
          | ok src =>
              cases hr : inspect_globals rest with
              | error e => simp [hsig, hsrc, hr, Bind.bind, Except.bind] at h
              | ok r =>
                  simp [hsig, hsrc, hr, Bind.bind, Except.bind] at h
                  exact ⟨st, sig, src, r, by simp [hst], by simp [hsig], by simp [hsrc], by simp [hr], h.1.symm, h.2.symm⟩

/-- C8: the emitted text of a successful translation is the blank-line
separated concatenation of every helper's forward signature, then every
helper's full translated body, in discovery order, then the translated root
body; helper entries are recorded in the order the closure inspection first
meets them, and every stored forward signature ends in a semicolon. -/
theorem C8_emitter_layout :
    (∀ (st : OklifierState) (rootStr : String) (sc : Scope),
       run_stmt st.globals [] "" st.root = .ok (rootStr, sc) →
       to_str st = .ok (String.intercalate "\n\n"
         (st.functions.map (fun f => f.2.1) ++ st.functions.map (fun f => f.2.2) ++
           [rootStr]))) ∧
    (∀ (gvs : List (String × PyValue)) (g0 : Globals)
       (fns : List (String × String × String)),
       inspect_globals gvs = .ok (g0, fns) →
       fns.map (fun f => f.1) =
         gvs.filterMap (fun p => match p.2 with
           | PyValue.pyFunction _ _ _ => some p.1
           | _ => none)) ∧
    (∀ (gvs : List (String × PyValue)) (g0 : Globals)
       (fns : List (String × String × String)),
       inspect_globals gvs = .ok (g0, fns) →
       ∀ f ∈ fns, ∃ t, f.2.1 = t ++ ";") := by
  refine ⟨?_, ?_, ?_⟩
  · intro st rootStr sc h
    simp [to_str, h, Bind.bind, Except.bind]
  · intro gvs
    induction gvs with
    | nil =>
        intro g0 fns h
        rw [inspect_globals] at h
        simp at h
        simp [h.2.symm]
    | cons p rest ih =>
        intro g0 fns h
        obtain ⟨n, v⟩ := p
        cases v with
        | ofType t =>
            cases htable : VALID_GLOBAL_VALUE_TYPES t with
            | some ts =>
                obtain ⟨r, hr, hg, hf⟩ := inspect_globals_cons_prim htable h
                subst hf
                simpa using ih r.1 r.2 (by simpa using hr)
            | none =>
                by_cases hname : n ∈ VALID_GLOBAL_NAMES
                · have hr := inspect_globals_cons_skip htable hname h
                  simpa using ih g0 fns hr
                · rw [inspect_globals] at h
                  rw [htable] at h
                  simp [hname] at h
        | pyFunction a b c =>
            obtain ⟨st, sig, src, r, hst, hsig, hsrc, hr, hg, hf⟩ :=
              inspect_globals_cons_function h
            subst hf
            simpa using ih r.1 r.2 (by simpa using hr)
  · intro gvs
    induction gvs with
    | nil =>
        intro g0 fns h
        rw [inspect_globals] at h
        simp at h
        simp [h.2]
    | cons p rest ih =>
        intro g0 fns h
        obtain ⟨n, v⟩ := p
        cases v with
        | ofType t =>
            cases htable : VALID_GLOBAL_VALUE_TYPES t with
            | some ts =>
                obtain ⟨r, hr, hg, hf⟩ := inspect_globals_cons_prim htable h
                subst hf
                exact ih r.1 r.2 (by simpa using hr)
            | none =>
                by_cases hname : n ∈ VALID_GLOBAL_NAMES
                · have hr := inspect_globals_cons_skip htable hname h
                  exact ih g0 fns hr
                · rw [inspect_globals] at h
                  rw [htable] at h
                  simp [hname] at h
        | pyFunction a b c =>
            obtain ⟨st, sig, src, r, hst, hsig, hsrc, hr, hg, hf⟩ :=
              inspect_globals_cons_function h
            subst hf
            intro f hf
            rcases List.mem_cons.mp hf with rfl | hf
            · exact signature_of_root_semicolon hsig
            · exact ih r.1 r.2 (by simpa using hr) f hf

/-- Witness for C8 at a concrete state: a root module with one stored helper
emits signature, body and root separated by blank lines; a concrete closure
with a primitive and a function global records the helper under its name in
discovery order, and its stored signature ends in a semicolon. -/
theorem C8_emitter_layout_witness :
    to_str ⟨[("N", "int")], [("f", "int f();", "int f() \x7b\n  return 1;\n\x7d")],
        .module [.passStmt]⟩ =
      .ok "int f();\n\nint f() \x7b\n  return 1;\n\x7d\n\n" ∧
    ([("f", "int f();", "int f() \x7b\n  return 1;\n\x7d")].map
        (fun (f : String × String × String) => f.1) =
      ([("N", PyValue.ofType .pyInt),
        ("f", PyValue.pyFunction [] []
          (.module [.funcDef "f" ⟨[], [], false, false, false, false⟩
            (some (.name "int")) [] [.returnStmt (.num 1)]]))].filterMap
        (fun p => match p.2 with
          | PyValue.pyFunction _ _ _ => some p.1
          | _ => none))) ∧
    (∃ t, "int f();" = t ++ ";") := by
  have hroot : run_stmt ([("N", "int")] : Globals) [] "" (.module [.passStmt]) =
      .ok ("", []) := by
    simp [run_stmt, stringify_Module, stringify_block, run_stmt_list,
      Bind.bind, Except.bind]
    rfl
  have hinspect : inspect_globals
      [("N", PyValue.ofType .pyInt),
       ("f", PyValue.pyFunction [] []
         (.module [.funcDef "f" ⟨[], [], false, false, false, false⟩
           (some (.name "int")) [] [.returnStmt (.num 1)]]))] =
      .ok ([("N", "int")],
           [("f", "int f();", "int f() \x7b\n  return 1;\n\x7d")]) := by
    simp +decide [inspect_globals, oklifier_init_function, inspect_builtins,
      signature_of_root, stringify_function_signature, stringify_annotation,
      stringify_Name, py_to_c_type, stringify_decorators, stringify_Arguments,
      stringify_Arguments_go, to_str, run_stmt, stringify_Module,
      stringify_FunctionDef, stringify_block, stringify_body, run_stmt_list,
      stringify_node, INDENT_TAB, VALID_GLOBAL_VALUE_TYPES,
      Bind.bind, Except.bind, Except.map]
  refine ⟨?_, ?_, ?_⟩
  · have h := C8_emitter_layout.1
      ⟨[("N", "int")], [("f", "int f();", "int f() \x7b\n  return 1;\n\x7d")],
        .module [.passStmt]⟩ "" [] hroot
    simpa using h
  · exact C8_emitter_layout.2.1 _ _ _ hinspect
  · exact C8_emitter_layout.2.2 _ _ _ hinspect
      ("f", "int f();", "int f() \x7b\n  return 1;\n\x7d") (by simp)
